/-
Verification of the cross-cutting protective mechanisms of a Cloudflare
read-only API gateway: the audit-log sanitizer (src/audit-logger.ts), the
GraphQL query guard (src/graphql-validator.ts), the token-bucket rate
limiter (src/rate-limiter.ts), and the credential vault / request routine
of the API client (src/api-client.ts).

Shallow embedding: each TypeScript function is translated into an
executable Lean definition; stateful code is modelled by explicit state
passing; the HTTP fetch and JSON.parse are abstracted as parameters
(their outcomes are inputs to the model).
-/

import Mathlib

set_option maxHeartbeats 1000000

/-! ## JavaScript-style values

Parameter mappings passed to the audit logger are JS objects
(`Record<string, unknown>`). We model the values that matter to the
sanitizer: strings, numbers, booleans, null/undefined, and nested
objects. In JS, `typeof value === "object" && value !== null` is true
exactly for the object case (`vObj` here); `null`/`undefined` and the
primitives fall into the else branch. -/

inductive JSValue where
  | vStr : String → JSValue
  | vNum : Int → JSValue
  | vBool : Bool → JSValue
  | vNull : JSValue
  | vObj : List (String × JSValue) → JSValue

/-! ## String helpers

The JS string methods used by the source — `toLowerCase()`, `trim()`,
`startsWith()`, `includes()` — are modelled at the character-list level
(`String.data`), so that every definition evaluates inside the kernel. -/

def containsSeq (needle : List Char) : List Char → Bool
  | [] => needle.isEmpty
  | c :: rest => needle.isPrefixOf (c :: rest) || containsSeq needle rest

/-- JS `hay.includes(needle)`. -/
def strIncludes (hay needle : String) : Bool :=
  containsSeq needle.data hay.data

/-- JS `s.toLowerCase()` (ASCII case mapping). -/
def jsToLower (s : String) : String :=
  String.mk (s.data.map Char.toLower)

/-- JS `s.trim()`: strip leading and trailing whitespace. -/
def jsTrim (s : String) : String :=
  String.mk (((s.data.dropWhile Char.isWhitespace).reverse.dropWhile
    Char.isWhitespace).reverse)

/-- JS `s.startsWith(pre)`. -/
def jsStartsWith (s pre : String) : Bool :=
  pre.data.isPrefixOf s.data

/-! ## Audit-log sanitizer (src/audit-logger.ts) -/

def REDACT_KEYS : List String :=
  ["api_key", "token", "secret", "password", "key", "credential"]

/-- `REDACT_KEYS.some(k => key.toLowerCase().includes(k))` -/
def isRedactKey (key : String) : Bool :=
  REDACT_KEYS.any (fun k => strIncludes (jsToLower key) k)

/-- `sanitizeParams` from src/audit-logger.ts: for each entry, a key that
case-insensitively contains a redaction term gets the fixed marker; a
non-matching object value is sanitized recursively; everything else is
copied unchanged. -/
def sanitizeParams : List (String × JSValue) → List (String × JSValue)
  | [] => []
  | (key, value) :: rest =>
      (key,
        if isRedactKey key then JSValue.vStr "[REDACTED]"
        else match value with
          | JSValue.vObj o => JSValue.vObj (sanitizeParams o)
          | v => v) :: sanitizeParams rest

/-! ## GraphQL query guard (src/graphql-validator.ts) -/

def lbraceChar : Char := Char.ofNat 123
def lparenChar : Char := Char.ofNat 40

/-- `\s*[{(]` : zero or more whitespace characters then `\x7b` or `(`. -/
def wsThenOpener : List Char → Bool
  | [] => false
  | c :: rest =>
      if c = lbraceChar || c = lparenChar then true
      else if c.isWhitespace then wsThenOpener rest
      else false

/-- Case-insensitive scan for regex `kw\s*[{(]` anywhere in the (already
lowercased) character list. -/
def kwThenOpener (kw : List Char) : List Char → Bool
  | [] => false
  | c :: rest =>
      (kw.isPrefixOf (c :: rest) && wsThenOpener ((c :: rest).drop kw.length))
        || kwThenOpener kw rest

/-- The four BLOCKED_PATTERNS of src/graphql-validator.ts, applied to the
trimmed query (case-insensitively, via lowering both sides). -/
def blockedMatch (trimmed : String) : Bool :=
  let lower := (jsToLower trimmed).data
  containsSeq "__schema".data lower
    || containsSeq "__type".data lower
    || kwThenOpener "mutation".data lower
    || kwThenOpener "subscription".data lower

/-- `validateGraphQLQuery` from src/graphql-validator.ts. `Except.error`
models a thrown `Error` with the given message. -/
def validateGraphQLQuery (query : String) : Except String Unit :=
  if query = "" then
    Except.error "GraphQL query must be a non-empty string"
  else
    let trimmed := jsTrim query
    if trimmed.length = 0 then
      Except.error "GraphQL query cannot be empty"
    else if blockedMatch trimmed then
      Except.error "GraphQL query contains disallowed operations"
    else
      let lowerTrimmed := jsToLower trimmed
      if jsStartsWith lowerTrimmed "query" || jsStartsWith lowerTrimmed "\x7b" then
        Except.ok ()
      else
        Except.error "GraphQL query must be a read-only query operation"

/-! ## Token-bucket rate limiter (src/rate-limiter.ts)

JS numbers are modelled by `ℚ`; `Date.now()` timestamps (milliseconds)
are passed in explicitly as inputs. -/

structure RateLimiter where
  tokens : ℚ
  lastRefill : ℚ
  maxTokens : ℚ
  refillRate : ℚ

/-- `new RateLimiter(maxTokens, refillRate)` at start time `now`. -/
def RateLimiter.init (maxTokens refillRate now : ℚ) : RateLimiter :=
  { tokens := maxTokens, lastRefill := now
    maxTokens := maxTokens, refillRate := refillRate }

/-- `refill()`: `elapsed = (now - lastRefill) / 1000`;
`tokens = min(maxTokens, tokens + elapsed * refillRate)`. -/
def RateLimiter.refill (b : RateLimiter) (now : ℚ) : RateLimiter :=
  { b with
    tokens := min b.maxTokens (b.tokens + (now - b.lastRefill) / 1000 * b.refillRate)
    lastRefill := now }

/-- One pass of `acquire()` at time `now`: refill, then either admit
(consume one token, `true`) or report that the caller must wait
(`false`, state after the refill). -/
def RateLimiter.tryAcquire (b : RateLimiter) (now : ℚ) : Bool × RateLimiter :=
  let b1 := b.refill now
  if b1.tokens < 1 then (false, b1)
  else (true, { b1 with tokens := b1.tokens - 1 })

/-- `Math.ceil((1 / refillRate) * 1000)` — the sleep before a retry. -/
def RateLimiter.waitMsQ (b : RateLimiter) : ℚ :=
  (⌈(1 / b.refillRate) * 1000⌉ : ℤ)

/-- The recursive `acquire()` loop: each list element is the value of
`Date.now()` observed at one pass (the gaps between consecutive entries
are at least the sleep duration, which `setTimeout` guarantees). `none`
means the supplied fuel/timeline was exhausted before admission. -/
def RateLimiter.acquireFuel : Nat → RateLimiter → List ℚ → Option RateLimiter
  | _, _, [] => none
  | 0, _, _ => none
  | n + 1, b, t :: ts =>
      match b.tryAcquire t with
      | (true, b1) => some b1
      | (false, b1) => RateLimiter.acquireFuel n b1 ts

/-- A sequence of `acquire()` passes at the given times (admitted or
not); used to state the bucket invariant at every observation point. -/
def RateLimiter.runCalls (b : RateLimiter) : List ℚ → RateLimiter
  | [] => b
  | t :: ts => RateLimiter.runCalls (b.tryAcquire t).2 ts

/-- The bucket invariant `0 <= tokens <= capacity`. -/
def RateLimiter.inv (b : RateLimiter) : Prop :=
  0 ≤ b.tokens ∧ b.tokens ≤ b.maxTokens

/-- Timestamps are observed at or after the bucket's last refill, in
nondecreasing order. -/
def timesMono : ℚ → List ℚ → Prop
  | _, [] => True
  | t0, t :: ts => t0 ≤ t ∧ timesMono t ts

/-! ## Credential vault (src/api-client.ts, V-004)

The token is a byte sequence (`Buffer`), modelled as `List ℕ`; the
random mask from `randomBytes` is an input. XOR needs no overflow
handling: `a ^^^ b < 256` whenever both arguments are. -/

structure ClientVault where
  tokenXorKey : List ℕ
  obfuscatedToken : List ℕ

/-- The constructor's obfuscation loop:
`obfuscatedToken[i] = tokenBuffer[i] ^ tokenXorKey[i]`. -/
def mkClientVault (tokenBuffer tokenXorKey : List ℕ) : ClientVault :=
  { tokenXorKey := tokenXorKey
    obfuscatedToken := List.zipWith (fun a b => a ^^^ b) tokenBuffer tokenXorKey }

/-- `getToken()`: `token[i] = obfuscatedToken[i] ^ tokenXorKey[i]`. -/
def ClientVault.getTokenBytes (v : ClientVault) : List ℕ :=
  List.zipWith (fun a b => a ^^^ b) v.obfuscatedToken v.tokenXorKey

/-- `CloudflareConfig` — the object the caller passes to the
constructor. -/
structure CloudflareConfig where
  apiToken : String

/-- The constructor of `CloudflareClient` as shipped in
src/api-client.ts: it encodes `config.apiToken`, XORs it with the random
mask, and stores mask and ciphertext. It performs no assignment to
`config.apiToken` (the repository's security-fix log shows the intended
patch ending with `config.apiToken = ""`, but that line is absent from
the shipped source), so the returned config is the input unchanged. -/
def cloudflareClientConstructor (config : CloudflareConfig) (randomMask : List ℕ)
    (encode : String → List ℕ) : ClientVault × CloudflareConfig :=
  (mkClientVault (encode config.apiToken) randomMask, config)

/-! ## Response envelope and safe error mapping (src/api-client.ts) -/

structure CFError where
  code : Int
  message : String

structure ResultInfo where
  page : Int
  per_page : Int
  total_pages : Int
  count : Int
  total_count : Int

structure CloudflareResponse (T : Type) where
  success : Bool
  errors : List CFError
  messages : List String
  result : T
  result_info : Option ResultInfo := none

def SAFE_ERROR_CODES : List (Int × String) :=
  [(6003, "Invalid request parameters"),
   (6100, "Invalid request headers"),
   (6200, "Invalid request body"),
   (7000, "Authentication error"),
   (7003, "Forbidden - insufficient permissions"),
   (9109, "Resource not found"),
   (10000, "Rate limit exceeded")]

/-- `SAFE_ERROR_CODES[e.code] ?? "An error occurred processing your request"` -/
def safeMessageFor (code : Int) : String :=
  (SAFE_ERROR_CODES.lookup code).getD "An error occurred processing your request"

/-- `[...new Set(xs)]` — deduplication keeping first occurrences in
order. -/
def dedupFirstAux (seen : List String) : List String → List String
  | [] => []
  | x :: xs =>
      if x ∈ seen then dedupFirstAux seen xs
      else x :: dedupFirstAux (x :: seen) xs

def dedupFirst (xs : List String) : List String :=
  dedupFirstAux [] xs

/-- Lines 105-110 of src/api-client.ts: map codes to safe messages,
deduplicate, join with "; ". -/
def buildSafeErrorMessage (errors : List CFError) : String :=
  String.intercalate "; " (dedupFirst (errors.map (fun e => safeMessageFor e.code)))

/-! ## Audit events and the request/graphql routines -/

structure AuditEvent where
  timestamp : String
  tool : String
  parameters : List (String × JSValue)
  success : Bool
  errorMessage : Option String
  durationMs : Nat

/-- `logAuditEvent` (src/audit-logger.ts): the emitted record carries the
sanitized parameters, and the `errorMessage` field is included only when
the message is truthy (present and non-empty), mirroring
`...(event.errorMessage && \x7b errorMessage \x7d)`. -/
def logAuditEventModel (e : AuditEvent) : AuditEvent :=
  { e with
    parameters := sanitizeParams e.parameters
    errorMessage :=
      match e.errorMessage with
      | some m => if m = "" then none else some m
      | none => none }

/-- `CloudflareClient.request` (src/api-client.ts lines 70-130), after
the rate-limiter acquisition and URL construction. The outcome of
`fetch`+`response.json()` is the input `fetchOutcome` (`Except.error m`
models a thrown transport error whose `.message` is `m`); the elapsed
time is the input `dur`. The second component is the list of audit
records emitted by the `finally` block. -/
def requestModel (T : Type) (method endpoint : String)
    (params : Option (List (String × JSValue))) (ts : String) (dur : Nat)
    (fetchOutcome : Except String (CloudflareResponse T)) :
    Except String (CloudflareResponse T) × List AuditEvent :=
  let tool := method ++ " " ++ endpoint
  match fetchOutcome with
  | Except.error m =>
      (Except.error m,
       [logAuditEventModel ⟨ts, tool, params.getD [], false, some m, dur⟩])
  | Except.ok data =>
      if data.success then
        (Except.ok data,
         [logAuditEventModel ⟨ts, tool, params.getD [], true, none, dur⟩])
      else
        let em := "Cloudflare API error: " ++ buildSafeErrorMessage data.errors
        (Except.error em,
         [logAuditEventModel ⟨ts, tool, params.getD [], false, some em, dur⟩])

/-- JS truthiness of the optional `variables` string argument. -/
def optStrTruthy : Option String → Bool
  | some s => s ≠ ""
  | none => false

/-- `CloudflareClient.graphqlAnalytics` (src/api-client.ts lines
342-386). `validateGraphQLQuery` runs first; when `variables` is truthy,
`validateGraphQLVariables` runs before the try block — its JSON parsing
is abstracted as the input `varsOutcome`. The fetch outcome is the input
`fetchOutcome` over an arbitrary parsed-body type `R`: the routine
returns the parsed body as-is, with no envelope inspection. The second
component is the audit-record trace. -/
def graphqlAnalyticsModel (R : Type) (query : String) (variablesArg : Option String)
    (varsOutcome : Except String Unit) (ts : String) (dur : Nat)
    (fetchOutcome : Except String R) : Except String R × List AuditEvent :=
  match validateGraphQLQuery query with
  | Except.error m => (Except.error m, [])
  | Except.ok _ =>
      let truthy := optStrTruthy variablesArg
      let proceed : Except String Unit :=
        if truthy then varsOutcome else Except.ok ()
      match proceed with
      | Except.error m => (Except.error m, [])
      | Except.ok _ =>
          let gparams : List (String × JSValue) :=
            [("queryLength", JSValue.vNum query.length),
             ("hasVariables", JSValue.vBool truthy)]
          match fetchOutcome with
          | Except.ok r =>
              (Except.ok r,
               [logAuditEventModel ⟨ts, "POST /graphql", gparams, true, none, dur⟩])
          | Except.error m =>
              (Except.error m,
               [logAuditEventModel ⟨ts, "POST /graphql", gparams, false, some m, dur⟩])

/-! ## Helper lemmas -/

theorem zipWith_xor_cancel (tb m : List ℕ) (h : m.length = tb.length) :
    List.zipWith (fun a b => a ^^^ b) (List.zipWith (fun a b => a ^^^ b) tb m) m = tb := by
  induction tb generalizing m with
  | nil => simp
  | cons a t ih =>
    cases m with
    | nil => simp at h
    | cons b mt =>
      have hl : mt.length = t.length := by simpa using h
      simp [List.zipWith, ih mt hl, Nat.xor_assoc]

theorem xor_eq_self_iff (a x : ℕ) : a ^^^ x = a ↔ x = 0 := by
  constructor
  · intro e
    have e2 : a ^^^ (a ^^^ x) = a ^^^ a := congrArg (a ^^^ ·) e
    simpa [← Nat.xor_assoc] using e2
  · intro e
    simp [e]

/-- C3: For every credential byte sequence and equal-length random mask,
`getToken` recovers exactly the original bytes (XOR with the mask is
self-inverse byte-wise), and whenever the mask has a nonzero byte (and
the credential is non-empty), the stored obfuscated bytes differ from
the plaintext bytes. -/
theorem vault_roundtrip (tokenBuffer mask : List ℕ)
    (h : mask.length = tokenBuffer.length) :
    (mkClientVault tokenBuffer mask).getTokenBytes = tokenBuffer
    ∧ (tokenBuffer ≠ [] →
        (∃ i, ∃ hi : i < mask.length, mask.get ⟨i, hi⟩ ≠ 0) →
        (mkClientVault tokenBuffer mask).obfuscatedToken ≠ tokenBuffer) := by
  constructor
  · exact zipWith_xor_cancel tokenBuffer mask h
  · rintro _ ⟨i, hi, hmz⟩ heq
    have hit : i < tokenBuffer.length := h ▸ hi
    have hlen : (List.zipWith (fun a b => a ^^^ b) tokenBuffer mask).length
        = tokenBuffer.length := by
      simp [List.length_zipWith, h]
    have hio : i < (mkClientVault tokenBuffer mask).obfuscatedToken.length := by
      simpa [mkClientVault, hlen] using hit
    have hg : (mkClientVault tokenBuffer mask).obfuscatedToken.get ⟨i, hio⟩
        = tokenBuffer.get ⟨i, hit⟩ ^^^ mask.get ⟨i, hi⟩ := by
      simp [mkClientVault, List.get_eq_getElem, List.getElem_zipWith]
    have hg2 := List.get_of_eq heq ⟨i, hio⟩
    rw [hg] at hg2
    exact hmz ((xor_eq_self_iff _ _).mp hg2)

/-- Witness for C3 at a concrete credential and mask. -/
theorem vault_roundtrip_witness :
    (mkClientVault [115, 101, 99] [1, 0, 0]).getTokenBytes = [115, 101, 99]
    ∧ (mkClientVault [115, 101, 99] [1, 0, 0]).obfuscatedToken ≠ [115, 101, 99] := by
  have h := vault_roundtrip [115, 101, 99] [1, 0, 0] (by decide)
  exact ⟨h.1, h.2 (by decide) ⟨0, by decide, by decide⟩⟩

/-- C8: the shipped constructor does not clear `config.apiToken` — after
construction the input config still holds the plaintext credential,
contradicting the repository's own security-fix log (whose patched
snippet ends with `config.apiToken = ""`) and the spec's "zeroed
immediately after encoding". Evaluated at a concrete failing input. -/
theorem constructor_leaves_config_plaintext :
    (cloudflareClientConstructor ⟨"secret-token-abc"⟩ [1, 2, 3]
        (fun s => s.toList.map Char.toNat)).2.apiToken = "secret-token-abc" := rfl

/-- Characterization of `sanitizeParams` as an entry-wise map: shared
helper for the redaction claims. -/
theorem sanitizeParams_eq_map (params : List (String × JSValue)) :
    sanitizeParams params = params.map (fun kv =>
      (kv.1, if isRedactKey kv.1 then JSValue.vStr "[REDACTED]"
             else match kv.2 with
               | JSValue.vObj o => JSValue.vObj (sanitizeParams o)
               | v => v)) := by
  induction params with
  | nil => simp [sanitizeParams]
  | cons kv rest ih =>
      cases kv with
      | mk k v => cases v <;> simp [sanitizeParams, ih]

/-- C4: the sanitizer replaces the value of every key that
case-insensitively contains a credential-like term with the fixed
redaction marker, recurses into nested mappings under non-matching keys,
leaves every other value unchanged; and on the mapping with keys
`api_key`, `Authorization_Token`, `user_password`, `safe_field` only
`safe_field` keeps its original value. -/
theorem sanitizeParams_redacts (params : List (String × JSValue))
    (key : String) (v : JSValue) (hmem : (key, v) ∈ params) :
    (isRedactKey key = true →
        (key, JSValue.vStr "[REDACTED]") ∈ sanitizeParams params)
    ∧ (isRedactKey key = false → (∀ o, v ≠ JSValue.vObj o) →
        (key, v) ∈ sanitizeParams params)
    ∧ (isRedactKey key = false → ∀ o, v = JSValue.vObj o →
        (key, JSValue.vObj (sanitizeParams o)) ∈ sanitizeParams params)
    ∧ sanitizeParams
        [("api_key", JSValue.vStr "A"), ("Authorization_Token", JSValue.vStr "B"),
         ("user_password", JSValue.vStr "C"), ("safe_field", JSValue.vStr "D")] =
      [("api_key", JSValue.vStr "[REDACTED]"),
       ("Authorization_Token", JSValue.vStr "[REDACTED]"),
       ("user_password", JSValue.vStr "[REDACTED]"),
       ("safe_field", JSValue.vStr "D")] := by
  refine ⟨fun hred => ?_, fun hred hno => ?_, fun hred o ho => ?_, ?_⟩
  · rw [sanitizeParams_eq_map]
    exact List.mem_map.mpr ⟨(key, v), hmem, by simp [hred]⟩
  · rw [sanitizeParams_eq_map]
    refine List.mem_map.mpr ⟨(key, v), hmem, ?_⟩
    cases v <;> simp [hred] <;> exact absurd rfl (hno _)
  · rw [sanitizeParams_eq_map]
    exact List.mem_map.mpr ⟨(key, v), hmem, by simp [hred, ho]⟩
  · have h1 : isRedactKey "api_key" = true := by decide
    have h2 : isRedactKey "Authorization_Token" = true := by decide
    have h3 : isRedactKey "user_password" = true := by decide
    have h4 : isRedactKey "safe_field" = false := by decide
    simp [sanitizeParams, h1, h2, h3, h4]

/-- Witness for C4 at a concrete mapping. -/
theorem sanitizeParams_redacts_witness :
    ("api_key", JSValue.vStr "[REDACTED]") ∈
      sanitizeParams [("api_key", JSValue.vStr "A"), ("safe_field", JSValue.vStr "D")]
    ∧ ("safe_field", JSValue.vStr "D") ∈
      sanitizeParams [("api_key", JSValue.vStr "A"), ("safe_field", JSValue.vStr "D")] := by
  constructor
  · exact (sanitizeParams_redacts _ "api_key" (JSValue.vStr "A")
      (by simp)).1 (by decide)
  · exact ((sanitizeParams_redacts _ "safe_field" (JSValue.vStr "D")
      (by simp)).2.1 (by decide) (fun o h => by cases h))

/-- C10: key-match redaction takes precedence over recursion — under a
matching key the emitted value is always the fixed marker (so no nested
mapping survives there) — and the sanitizer is idempotent. -/
theorem sanitizeParams_precedence_idem :
    (∀ (params : List (String × JSValue)) (key : String) (w : JSValue),
        isRedactKey key = true → (key, w) ∈ sanitizeParams params →
        w = JSValue.vStr "[REDACTED]")
    ∧ ∀ params, sanitizeParams (sanitizeParams params) = sanitizeParams params := by
  constructor
  · intro params key w hred hmem
    rw [sanitizeParams_eq_map] at hmem
    obtain ⟨kv, _, heq⟩ := List.mem_map.mp hmem
    rw [Prod.ext_iff] at heq
    obtain ⟨hk, hw⟩ := heq
    rw [hk, hred] at hw
    simpa using hw.symm
  · intro p
    induction p using sanitizeParams.induct with
    | case1 => simp [sanitizeParams]
    | case2 key value rest iho ihr =>
        by_cases hk : isRedactKey key = true
        · cases value <;> simp [sanitizeParams, hk, ihr]
        · cases value <;>
            simp [sanitizeParams, hk, ihr] <;>
            simp_all [sanitizeParams, hk]

/-- C5: `validateGraphQLQuery` rejects exactly when the trimmed text is
empty, or a blocklist pattern (`__schema`, `__type`, `mutation`/
`subscription` block opener, case-insensitive) matches, or the trimmed
text does not begin case-insensitively with `query` or with a brace; and
the four concrete examples behave as stated. -/
theorem validateGraphQLQuery_spec :
    (∀ query : String,
      (∃ m, validateGraphQLQuery query = Except.error m) ↔
        (jsTrim query = "" ∨ blockedMatch (jsTrim query) = true ∨
          (jsStartsWith (jsToLower (jsTrim query)) "query" = false ∧
           jsStartsWith (jsToLower (jsTrim query)) "\x7b" = false)))
    ∧ (∃ m, validateGraphQLQuery "\x7b __schema \x7b types \x7b name \x7d \x7d \x7d"
        = Except.error m)
    ∧ (∃ m, validateGraphQLQuery "mutation \x7b deleteZone \x7d" = Except.error m)
    ∧ validateGraphQLQuery "query \x7b zones \x7b id \x7d \x7d" = Except.ok ()
    ∧ validateGraphQLQuery "\x7b viewer \x7b zones \x7b id \x7d \x7d \x7d"
        = Except.ok () := by
  refine ⟨fun query => ?_, ⟨_, rfl⟩, ⟨_, rfl⟩, rfl, rfl⟩
  unfold validateGraphQLQuery
  by_cases h0 : query = ""
  · subst h0
    simp
    left
    rfl
  · simp only [h0, if_false]
    by_cases h1 : (jsTrim query).length = 0
    · have he : jsTrim query = "" := by
        cases hq : jsTrim query with
        | mk d =>
            rw [hq] at h1
            simp [String.length] at h1
            simp [h1]
      simp [h1, he]
    · have hne : ¬ jsTrim query = "" := by
        intro he
        rw [he] at h1
        exact h1 rfl
      simp only [h1, if_false]
      by_cases h2 : blockedMatch (jsTrim query) = true
      · simp [h2]
      · simp only [h2, if_false]
        by_cases h3 : (jsStartsWith (jsToLower (jsTrim query)) "query"
            || jsStartsWith (jsToLower (jsTrim query)) "\x7b") = true
        · simp [h3, hne, h2]
          rcases Bool.or_eq_true_iff.mp h3 with hq | hb
          · simp [hq]
          · simp [hb]
        · have hsplit := h3
          rw [Bool.or_eq_true_iff] at hsplit
          push_neg at hsplit
          simp only [h3, if_false]
          constructor
          · intro _
            right; right
            exact ⟨Bool.eq_false_iff.mpr hsplit.1, Bool.eq_false_iff.mpr hsplit.2⟩
          · intro _
            exact ⟨_, rfl⟩

theorem lookup_mem {α β : Type} [BEq α] [LawfulBEq α] (l : List (α × β)) (a : α)
    (b : β) (h : List.lookup a l = some b) : (a, b) ∈ l := by
  induction l with
  | nil => simp [List.lookup] at h
  | cons kv t ih =>
      cases kv with
      | mk k v =>
          rw [List.lookup] at h
          by_cases hk : (a == k) = true
          · rw [hk] at h
            simp at h
            simp [eq_of_beq hk, h]
          · rw [Bool.eq_false_iff.mpr hk] at h
            simp at h ⊢
            right
            simpa using ih h

theorem safeMessageFor_cases (c : Int) :
    safeMessageFor c ∈ SAFE_ERROR_CODES.map Prod.snd
      ∨ safeMessageFor c = "An error occurred processing your request" := by
  unfold safeMessageFor
  cases h : List.lookup c SAFE_ERROR_CODES with
  | none => right; rfl
  | some s =>
      left
      simp only [Option.getD_some]
      exact List.mem_map.mpr ⟨(c, s), lookup_mem _ _ _ h, rfl⟩

theorem dedupFirstAux_sub (xs : List String) (seen : List String) (x : String)
    (h : x ∈ dedupFirstAux seen xs) : x ∈ xs := by
  induction xs generalizing seen with
  | nil => simp [dedupFirstAux] at h
  | cons a t ih =>
      rw [dedupFirstAux] at h
      by_cases ha : a ∈ seen
      · simp only [if_pos ha] at h
        exact List.mem_cons_of_mem _ (ih _ h)
      · simp only [if_neg ha, List.mem_cons] at h
        rcases h with h | h
        · simp [h]
        · exact List.mem_cons_of_mem _ (ih _ h)

/-- `buildSafeErrorMessage` depends only on the error codes, never on the
upstream-supplied message strings. -/
theorem buildSafeErrorMessage_codes_only (e1 e2 : List CFError)
    (h : e1.map CFError.code = e2.map CFError.code) :
    buildSafeErrorMessage e1 = buildSafeErrorMessage e2 := by
  unfold buildSafeErrorMessage
  have h1 : e1.map (fun e => safeMessageFor e.code)
      = (e1.map CFError.code).map safeMessageFor := by
    rw [List.map_map]; rfl
  have h2 : e2.map (fun e => safeMessageFor e.code)
      = (e2.map CFError.code).map safeMessageFor := by
    rw [List.map_map]; rfl
  rw [h1, h2, h]

/-- C1: on `success=false` the request routine fails with a message
assembled solely from the fixed safe-message table (with the generic
fallback), deduplicated; the message is a function of the error codes
alone (independent of upstream message text); and for
`errors=[(7003, M)]` the message is the fixed string for 7003, whatever
M is. -/
theorem request_safe_errors (T : Type) (method endpoint : String)
    (params : Option (List (String × JSValue))) (ts : String) (dur : Nat)
    (data : CloudflareResponse T) (hf : data.success = false) :
    (requestModel T method endpoint params ts dur (Except.ok data)).1 =
      Except.error ("Cloudflare API error: " ++ buildSafeErrorMessage data.errors)
    ∧ (∀ s ∈ dedupFirst (data.errors.map (fun e => safeMessageFor e.code)),
        s ∈ SAFE_ERROR_CODES.map Prod.snd
          ∨ s = "An error occurred processing your request")
    ∧ (∀ data2 : CloudflareResponse T, data2.success = false →
        data2.errors.map CFError.code = data.errors.map CFError.code →
        (requestModel T method endpoint params ts dur (Except.ok data2)).1 =
          (requestModel T method endpoint params ts dur (Except.ok data)).1)
    ∧ (∀ (M : String) (r : T),
        (requestModel T method endpoint params ts dur
            (Except.ok ⟨false, [⟨7003, M⟩], [], r, none⟩)).1 =
          Except.error "Cloudflare API error: Forbidden - insufficient permissions") := by
  refine ⟨by simp [requestModel, hf], fun s hs => ?_, fun data2 hf2 hcodes => ?_, fun M r => ?_⟩
  · obtain ⟨e, _, he⟩ := List.mem_map.mp (dedupFirstAux_sub _ _ _ hs)
    rw [← he]
    exact safeMessageFor_cases e.code
  · simp only [requestModel, hf, hf2, if_false, Bool.false_eq_true]
    rw [buildSafeErrorMessage_codes_only data2.errors data.errors hcodes]
  · rfl

/-- Witness for C1 at a concrete failed envelope. -/
theorem request_safe_errors_witness :
    (requestModel Unit "GET" "/zones" none "t" 5
        (Except.ok ⟨false, [⟨7003, "leaky internal detail"⟩], [], (), none⟩)).1 =
      Except.error ("Cloudflare API error: "
        ++ buildSafeErrorMessage [⟨7003, "leaky internal detail"⟩]) :=
  (request_safe_errors Unit "GET" "/zones" none "t" 5
    ⟨false, [⟨7003, "leaky internal detail"⟩], [], (), none⟩ rfl).1

/-- C2: each attempt through the generic request routine emits exactly
one audit record on the finally path — for every fetch outcome, success
or raised error — carrying the operation identifier, the parameters,
the elapsed time and the outcome; and likewise for the free-text GraphQL
operation once its guard checks have passed. -/
theorem audit_exactly_once :
    (∀ (T : Type) (method endpoint : String)
        (params : Option (List (String × JSValue))) (ts : String) (dur : Nat)
        (fo : Except String (CloudflareResponse T)),
      (requestModel T method endpoint params ts dur fo).2.length = 1
      ∧ ∀ ev ∈ (requestModel T method endpoint params ts dur fo).2,
          ev.tool = method ++ " " ++ endpoint ∧ ev.durationMs = dur
          ∧ ev.parameters = sanitizeParams (params.getD [])
          ∧ (ev.success = true ↔
              ∃ v, (requestModel T method endpoint params ts dur fo).1 = Except.ok v))
    ∧ (∀ (R : Type) (q : String) (va : Option String) (vo : Except String Unit)
        (ts : String) (dur : Nat) (fo : Except String R),
      validateGraphQLQuery q = Except.ok () → vo = Except.ok () →
      (graphqlAnalyticsModel R q va vo ts dur fo).2.length = 1
      ∧ ∀ ev ∈ (graphqlAnalyticsModel R q va vo ts dur fo).2,
          ev.tool = "POST /graphql" ∧ ev.durationMs = dur
          ∧ (ev.success = true ↔
              ∃ v, (graphqlAnalyticsModel R q va vo ts dur fo).1 = Except.ok v)) := by
  constructor
  · intro T method endpoint params ts dur fo
    cases fo with
    | error m =>
        refine ⟨rfl, fun ev hev => ?_⟩
        simp [requestModel, logAuditEventModel] at hev
        simp [hev, requestModel]
    | ok data =>
        by_cases hs : data.success = true
        · refine ⟨by simp [requestModel, hs], fun ev hev => ?_⟩
          simp [requestModel, hs, logAuditEventModel] at hev
          simp [hev, requestModel, hs]
        · have hs2 : data.success = false := Bool.eq_false_iff.mpr hs
          refine ⟨by simp [requestModel, hs2], fun ev hev => ?_⟩
          simp [requestModel, hs2, logAuditEventModel] at hev
          simp [hev, requestModel, hs2]
  · intro R q va vo ts dur fo hq hvo
    subst hvo
    have hproceed : (if optStrTruthy va then Except.ok () else Except.ok ())
        = (Except.ok () : Except String Unit) := ite_self _
    cases fo with
    | error m =>
        refine ⟨?_, fun ev hev => ?_⟩
        · simp [graphqlAnalyticsModel, hq, hproceed]
        · simp [graphqlAnalyticsModel, hq, hproceed, logAuditEventModel] at hev
          simp [hev, graphqlAnalyticsModel, hq, hproceed]
    | ok r =>
        refine ⟨?_, fun ev hev => ?_⟩
        · simp [graphqlAnalyticsModel, hq, hproceed]
        · simp [graphqlAnalyticsModel, hq, hproceed, logAuditEventModel] at hev
          simp [hev, graphqlAnalyticsModel, hq, hproceed]

/-- Witness for C2 at concrete attempts (one success, one failure, one
GraphQL call). -/
theorem audit_exactly_once_witness :
    (requestModel Unit "GET" "/zones" none "t" 5
        (Except.ok ⟨true, [], [], (), none⟩)).2.length = 1
    ∧ (requestModel Unit "GET" "/zones" none "t" 5
        (Except.error "connection reset")).2.length = 1
    ∧ (graphqlAnalyticsModel Unit "query \x7b zones \x7b id \x7d \x7d" none
        (Except.ok ()) "t" 5 (Except.ok ())).2.length = 1 :=
  ⟨(audit_exactly_once.1 Unit "GET" "/zones" none "t" 5
      (Except.ok ⟨true, [], [], (), none⟩)).1,
   (audit_exactly_once.1 Unit "GET" "/zones" none "t" 5
      (Except.error "connection reset")).1,
   (audit_exactly_once.2 Unit "query \x7b zones \x7b id \x7d \x7d" none
      (Except.ok ()) "t" 5 (Except.ok ()) rfl rfl).1⟩

/-- C7 (amended): the free-text GraphQL operation runs the query guard,
the rate limiter, the auth header and the guaranteed audit emission, but
does NOT perform envelope parsing or safe-message mapping — it returns
the parsed response body to the caller as-is, raising no error even when
that body is an envelope with `success=false`. -/
theorem graphql_returns_raw_body (R : Type) (q : String) (va : Option String)
    (ts : String) (dur : Nat) (r : R) (hq : validateGraphQLQuery q = Except.ok ()) :
    (graphqlAnalyticsModel R q va (Except.ok ()) ts dur (Except.ok r)).1 = Except.ok r
    ∧ (graphqlAnalyticsModel R q va (Except.ok ()) ts dur (Except.ok r)).2.length = 1 := by
  have hproceed : (if optStrTruthy va then Except.ok () else Except.ok ())
      = (Except.ok () : Except String Unit) := ite_self _
  constructor
  · simp [graphqlAnalyticsModel, hq, hproceed]
  · simp [graphqlAnalyticsModel, hq, hproceed]

/-- Witness for the amended C7: a stubbed upstream envelope with
`success=false` is returned raw. -/
theorem graphql_returns_raw_body_witness :
    (graphqlAnalyticsModel (CloudflareResponse Unit) "query \x7b viewer \x7d" none
        (Except.ok ()) "t" 1
        (Except.ok ⟨false, [⟨7003, "leaky internal detail"⟩], [], (), none⟩)).1 =
      Except.ok ⟨false, [⟨7003, "leaky internal detail"⟩], [], (), none⟩ :=
  (graphql_returns_raw_body (CloudflareResponse Unit) "query \x7b viewer \x7d" none
    "t" 1 ⟨false, [⟨7003, "leaky internal detail"⟩], [], (), none⟩ rfl).1

/-- Counterexample to C7 as stated: for a response envelope with
`success=false` (error code 7003), `graphqlAnalytics` does not fail with
a safe-message error — it returns the envelope unchanged, so the claim
that the free-text operation performs steps (d) and (e) of the generic
routine is false on the code. -/
theorem graphql_envelope_not_checked :
    (graphqlAnalyticsModel (CloudflareResponse Unit) "query \x7b zones \x7d" none
        (Except.ok ()) "t" 1
        (Except.ok ⟨false, [⟨7003, "leaky internal detail"⟩], [], (), none⟩)).1 =
      Except.ok ⟨false, [⟨7003, "leaky internal detail"⟩], [], (), none⟩
    ∧ ∀ m : String,
      (graphqlAnalyticsModel (CloudflareResponse Unit) "query \x7b zones \x7d" none
          (Except.ok ()) "t" 1
          (Except.ok ⟨false, [⟨7003, "leaky internal detail"⟩], [], (), none⟩)).1 ≠
        Except.error m := by
  constructor
  · rfl
  · intro m hm
    rw [show (graphqlAnalyticsModel (CloudflareResponse Unit)
        "query \x7b zones \x7d" none (Except.ok ()) "t" 1
        (Except.ok ⟨false, [⟨7003, "leaky internal detail"⟩], [], (), none⟩)).1 =
      Except.ok ⟨false, [⟨7003, "leaky internal detail"⟩], [], (), none⟩ from rfl] at hm
    exact Except.noConfusion hm

theorem tryAcquire_cases (b : RateLimiter) (now : ℚ) :
    (¬ (b.refill now).tokens < 1 → b.tryAcquire now =
        (true, { b.refill now with tokens := (b.refill now).tokens - 1 }))
    ∧ ((b.refill now).tokens < 1 → b.tryAcquire now = (false, b.refill now)) := by
  constructor
  · intro h
    simp [RateLimiter.tryAcquire, h]
  · intro h
    simp [RateLimiter.tryAcquire, h]

theorem tryAcquire_preserves (b : RateLimiter) (now : ℚ)
    (hinv : b.inv) (hr : 0 ≤ b.refillRate) (ht : b.lastRefill ≤ now) :
    ((b.tryAcquire now).2).inv ∧ ((b.tryAcquire now).2).lastRefill = now
    ∧ ((b.tryAcquire now).2).maxTokens = b.maxTokens
    ∧ ((b.tryAcquire now).2).refillRate = b.refillRate := by
  obtain ⟨h0, hm⟩ := hinv
  have hmax0 : (0:ℚ) ≤ b.maxTokens := le_trans h0 hm
  have hrefl0 : 0 ≤ (now - b.lastRefill) / 1000 * b.refillRate :=
    mul_nonneg (div_nonneg (by linarith) (by norm_num)) hr
  have hx0 : 0 ≤ (b.refill now).tokens := le_min hmax0 (by linarith)
  have hxm : (b.refill now).tokens ≤ b.maxTokens := min_le_left _ _
  by_cases hc : (b.refill now).tokens < 1
  · rw [(tryAcquire_cases b now).2 hc]
    exact ⟨⟨hx0, hxm⟩, rfl, rfl, rfl⟩
  · rw [(tryAcquire_cases b now).1 hc]
    push_neg at hc
    refine ⟨⟨?_, ?_⟩, rfl, rfl, rfl⟩
    · show 0 ≤ (b.refill now).tokens - 1
      linarith
    · show (b.refill now).tokens - 1 ≤ (b.refill now).maxTokens
      have hmx : (b.refill now).maxTokens = b.maxTokens := rfl
      rw [hmx]
      linarith

/-- C6: an admitted `acquire()` leaves exactly
`min(capacity, previousTokens + elapsedSeconds * refillRate) - 1`
tokens, and along any sequence of passes at nondecreasing times the
bucket invariant `0 <= tokens <= capacity` holds at every observation
point. -/
theorem rateLimiter_conservation :
    (∀ (b : RateLimiter) (now : ℚ), (b.tryAcquire now).1 = true →
      ((b.tryAcquire now).2).tokens =
        min b.maxTokens (b.tokens + (now - b.lastRefill) / 1000 * b.refillRate) - 1)
    ∧ (∀ (b : RateLimiter) (ts : List ℚ), b.inv → 0 ≤ b.refillRate →
        timesMono b.lastRefill ts → (b.runCalls ts).inv) := by
  constructor
  · intro b now hadm
    by_cases hc : (b.refill now).tokens < 1
    · rw [(tryAcquire_cases b now).2 hc] at hadm
      simp at hadm
    · rw [(tryAcquire_cases b now).1 hc]
      rfl
  · intro b ts
    induction ts generalizing b with
    | nil =>
        intro hinv _ _
        simpa [RateLimiter.runCalls] using hinv
    | cons t rest ih =>
        intro hinv hr htm
        obtain ⟨ht, hts⟩ := htm
        have hp := tryAcquire_preserves b t hinv hr ht
        rw [RateLimiter.runCalls]
        refine ih _ hp.1 ?_ ?_
        · rw [hp.2.2.2]; exact hr
        · rw [hp.2.1]; exact hts

/-- Witness for C6 at a concrete bucket and call sequence. -/
theorem rateLimiter_conservation_witness :
    ((RateLimiter.tryAcquire ⟨100, 0, 100, 10⟩ 0).2).tokens =
      min (100:ℚ) (100 + (0 - 0) / 1000 * 10) - 1
    ∧ (RateLimiter.runCalls ⟨100, 0, 100, 10⟩ [0, 100]).inv := by
  have hadm : (RateLimiter.tryAcquire ⟨100, 0, 100, 10⟩ 0).1 = true := by
    have hc : ¬ ((⟨100, 0, 100, 10⟩ : RateLimiter).refill 0).tokens < 1 := by
      show ¬ min (100:ℚ) (100 + (0 - 0) / 1000 * 10) < 1
      norm_num
    rw [(tryAcquire_cases ⟨100, 0, 100, 10⟩ 0).1 hc]
  exact ⟨rateLimiter_conservation.1 ⟨100, 0, 100, 10⟩ 0 hadm,
    rateLimiter_conservation.2 ⟨100, 0, 100, 10⟩ [0, 100]
      ⟨by norm_num, by norm_num⟩ (by norm_num)
      ⟨by norm_num, by norm_num, trivial⟩⟩

/-- C9: `acquire()` admits immediately when the recomputed token count
is at least 1; a pass that finds fewer than one token sleeps
`ceil(1000/refillRate)` milliseconds and the retry then succeeds (so the
loop terminates with fuel 2 whenever time advances by at least the sleep
duration); and a caller blocked at `tokens=0` is admitted as soon as the
elapsed time since the last refill reaches `1/refillRate` seconds. -/
theorem acquire_terminates :
    (∀ (b : RateLimiter) (now : ℚ), 1 ≤ (b.refill now).tokens →
      (b.tryAcquire now).1 = true)
    ∧ (∀ (b : RateLimiter) (t1 t2 : ℚ), b.inv → 0 < b.refillRate →
        1 ≤ b.maxTokens → b.lastRefill ≤ t1 → t1 + b.waitMsQ ≤ t2 →
        (RateLimiter.acquireFuel 2 b [t1, t2]).isSome = true)
    ∧ (∀ (b : RateLimiter) (now : ℚ), b.tokens = 0 → 1 ≤ b.maxTokens →
        0 < b.refillRate → 1 / b.refillRate ≤ (now - b.lastRefill) / 1000 →
        (b.tryAcquire now).1 = true) := by
  refine ⟨fun b now h1 => ?_, fun b t1 t2 hinv hrpos hm1 ht1 hgap => ?_,
    fun b now h0 hm1 hrpos hel => ?_⟩
  · rw [(tryAcquire_cases b now).1 (not_lt.mpr h1)]
  · by_cases hc : (b.refill t1).tokens < 1
    · have e1 : b.tryAcquire t1 = (false, b.refill t1) := (tryAcquire_cases b t1).2 hc
      have hp := tryAcquire_preserves b t1 hinv (le_of_lt hrpos) ht1
      rw [e1] at hp
      have hb1inv := hp.1
      have hrne : b.refillRate ≠ 0 := ne_of_gt hrpos
      have hceil : (1 / b.refillRate) * 1000 ≤ b.waitMsQ := Int.le_ceil _
      have hge : (1 / b.refillRate) * 1000 ≤ t2 - t1 := by linarith
      have h2 : (1 / b.refillRate) * 1000 / 1000 * b.refillRate
          ≤ (t2 - t1) / 1000 * b.refillRate :=
        mul_le_mul_of_nonneg_right
          ((div_le_div_iff_of_pos_right (by norm_num : (0:ℚ) < 1000)).mpr hge)
          (le_of_lt hrpos)
      have h3a : (1 / b.refillRate) * 1000 / 1000 = 1 / b.refillRate := by
        rw [mul_div_assoc]
        norm_num
      have h3 : (1 / b.refillRate) * 1000 / 1000 * b.refillRate = 1 := by
        rw [h3a, one_div_mul_cancel hrne]
      have htok : 1 ≤ ((b.refill t1).refill t2).tokens := by
        apply le_min
        · show (1:ℚ) ≤ (b.refill t1).maxTokens
          have hmx : (b.refill t1).maxTokens = b.maxTokens := rfl
          rw [hmx]
          exact hm1
        · have ht0 : 0 ≤ (b.refill t1).tokens := hb1inv.1
          have hlast : (b.refill t1).lastRefill = t1 := rfl
          have hrate : (b.refill t1).refillRate = b.refillRate := rfl
          rw [hlast, hrate]
          linarith
      have e2 : (b.refill t1).tryAcquire t2 =
          (true, { (b.refill t1).refill t2 with
                   tokens := ((b.refill t1).refill t2).tokens - 1 }) :=
        (tryAcquire_cases (b.refill t1) t2).1 (not_lt.mpr htok)
      have estep : RateLimiter.acquireFuel 2 b [t1, t2] =
          match b.tryAcquire t1 with
          | (true, b1) => some b1
          | (false, b1) => RateLimiter.acquireFuel 1 b1 [t2] := rfl
      rw [estep, e1]
      show (RateLimiter.acquireFuel 1 (b.refill t1) [t2]).isSome = true
      have estep2 : RateLimiter.acquireFuel 1 (b.refill t1) [t2] =
          match (b.refill t1).tryAcquire t2 with
          | (true, b1) => some b1
          | (false, b1) => RateLimiter.acquireFuel 0 b1 [] := rfl
      rw [estep2, e2]
      rfl
    · have e1 : b.tryAcquire t1 =
          (true, { b.refill t1 with tokens := (b.refill t1).tokens - 1 }) :=
        (tryAcquire_cases b t1).1 hc
      have estep : RateLimiter.acquireFuel 2 b [t1, t2] =
          match b.tryAcquire t1 with
          | (true, b1) => some b1
          | (false, b1) => RateLimiter.acquireFuel 1 b1 [t2] := rfl
      rw [estep, e1]
      rfl
  · have hrne : b.refillRate ≠ 0 := ne_of_gt hrpos
    have h2 : (1 / b.refillRate) * b.refillRate
        ≤ (now - b.lastRefill) / 1000 * b.refillRate :=
      mul_le_mul_of_nonneg_right hel (le_of_lt hrpos)
    have h3 : (1 / b.refillRate) * b.refillRate = 1 := one_div_mul_cancel hrne
    have htok : 1 ≤ (b.refill now).tokens := by
      apply le_min hm1
      rw [h0]
      linarith
    rw [(tryAcquire_cases b now).1 (not_lt.mpr htok)]

/-- Witness for C9 at concrete buckets: an immediate admission, a
blocked-then-admitted retry, and a release from `tokens=0` after
`1/refillRate` seconds. -/
theorem acquire_terminates_witness :
    ((RateLimiter.tryAcquire ⟨100, 0, 100, 10⟩ 0).1 = true)
    ∧ ((RateLimiter.acquireFuel 2 ⟨0, 0, 100, 10⟩ [0, 100]).isSome = true)
    ∧ ((RateLimiter.tryAcquire ⟨0, 0, 100, 10⟩ 100).1 = true) := by
  refine ⟨?_, ?_, ?_⟩
  · apply acquire_terminates.1 ⟨100, 0, 100, 10⟩ 0
    show (1:ℚ) ≤ min (100:ℚ) (100 + (0 - 0) / 1000 * 10)
    norm_num
  · apply acquire_terminates.2.1 ⟨0, 0, 100, 10⟩ 0 100
      ⟨by norm_num, by norm_num⟩ (by norm_num) (by norm_num) (by norm_num)
    show (0:ℚ) + ((⌈(1 / (10:ℚ)) * 1000⌉ : ℤ) : ℚ) ≤ 100
    norm_num
  · apply acquire_terminates.2.2 ⟨0, 0, 100, 10⟩ 100 rfl (by norm_num) (by norm_num)
    show 1 / (10:ℚ) ≤ (100 - 0) / 1000
    norm_num

/-- Witness for C10: a nested mapping under the matching key `token` is
replaced wholesale by the marker, and re-sanitizing is a no-op. -/
theorem sanitizeParams_precedence_idem_witness :
    JSValue.vStr "[REDACTED]" = JSValue.vStr "[REDACTED]"
    ∧ sanitizeParams (sanitizeParams
        [("token", JSValue.vObj [("inner", JSValue.vStr "x")])])
      = sanitizeParams [("token", JSValue.vObj [("inner", JSValue.vStr "x")])] :=
  ⟨sanitizeParams_precedence_idem.1
      [("token", JSValue.vObj [("inner", JSValue.vStr "x")])] "token"
      (JSValue.vStr "[REDACTED]") (by decide)
      (by
        rw [sanitizeParams_eq_map]
        simp [(by decide : isRedactKey "token" = true)]),
   sanitizeParams_precedence_idem.2
      [("token", JSValue.vObj [("inner", JSValue.vStr "x")])]⟩
